import Mathlib

/-!
Verification of the change-impact pipeline: the Change Detector
(scripts/pre-ci/change-detection.py), the Metadata Enhancer
(scripts/prepare-change-meta.py) and the Impact Validator
(scripts/pre-ci/validate-change-impact.py), shallowly embedded as pure
Lean functions over the JSON-like documents the scripts exchange.
-/

/- ### Glob matching (Python fnmatch semantics, case-sensitive) -/

/-- Match one character against the body of a glob character class:
literal characters and x-y ranges, as in fnmatch bracket expressions. -/
def matchClass (c : Char) : List Char → Bool
  | [] => false
  | x :: '-' :: y :: rest => (decide (x ≤ c) && decide (c ≤ y)) || matchClass c rest
  | x :: rest => (x == c) || matchClass c rest

/-- Scan for the closing bracket of a glob character class; returns the
class body and the remaining pattern, or none when the class is unclosed. -/
def findClose : List Char → Option (List Char × List Char)
  | [] => none
  | ']' :: rest => some ([], rest)
  | c :: rest =>
    match findClose rest with
    | none => none
    | some p => some (c :: p.1, p.2)

/-- Parse a glob character class right after the opening bracket, with
fnmatch rules: a leading bang negates, a bracket right after that is a
literal member, and an unclosed class makes the opening bracket literal. -/
def parseClass (ps : List Char) : Option (Bool × List Char × List Char) :=
  match ps with
  | '!' :: t =>
    match t with
    | ']' :: t2 =>
      match findClose t2 with
      | none => none
      | some p => some (true, ']' :: p.1, p.2)
    | _ =>
      match findClose t with
      | none => none
      | some p => some (true, p.1, p.2)
  | ']' :: t2 =>
    match findClose t2 with
    | none => none
    | some p => some (false, ']' :: p.1, p.2)
  | _ =>
    match findClose ps with
    | none => none
    | some p => some (false, p.1, p.2)

/-- Fuelled glob matcher: star matches any sequence, question mark one
character, bracket classes one character from a set.  The fuel only bounds
recursion depth; `fnmatch` always supplies enough. -/
def globMatchAux : Nat → List Char → List Char → Bool
  | 0, _, _ => false
  | _ + 1, [], [] => true
  | _ + 1, [], _ :: _ => false
  | fuel + 1, '*' :: ps, [] => globMatchAux fuel ps []
  | fuel + 1, '*' :: ps, c :: cs =>
    globMatchAux fuel ps (c :: cs) || globMatchAux fuel ('*' :: ps) cs
  | fuel + 1, '?' :: ps, _ :: cs => globMatchAux fuel ps cs
  | _ + 1, '?' :: _, [] => false
  | fuel + 1, '[' :: ps, cs =>
    match parseClass ps with
    | some (neg, content, rest) =>
      match cs with
      | [] => false
      | c :: cs2 => (neg != matchClass c content) && globMatchAux fuel rest cs2
    | none =>
      match cs with
      | [] => false
      | c :: cs2 => ('[' == c) && globMatchAux fuel ps cs2
  | fuel + 1, p :: ps, c :: cs => (p == c) && globMatchAux fuel ps cs
  | _ + 1, _ :: _, [] => false

/-- `fnmatch.fnmatch(name, pattern)`: whole-name glob match. -/
def fnmatch (name pattern : String) : Bool :=
  globMatchAux (pattern.toList.length + name.toList.length + 1) pattern.toList name.toList

/-- `file_path.replace(chr(92), chr(47))`: normalize path separators. -/
def normalizePath (s : String) : String :=
  String.mk (s.data.map (fun c => if c == '\\' then '/' else c))

/- ### Data model -/

/-- One rule of `resourceMappings` in change-detection-config.yaml.
Fields read with `.get` default to none (absent key) or an empty list. -/
structure MappingConfig where
  patterns : List String
  resource_type : Option String
  impact_level : Option String
  target_stack : Option String
  description : Option String
  required_actions : List String
  deriving DecidableEq, Repr

/-- The rule set loaded from change-detection-config.yaml: exclusion
patterns, the resource mappings in declaration order, and the keys that
seed the deployment checklist. -/
structure RuleSet where
  exclusion_patterns : List String
  resource_mappings : List (String × MappingConfig)
  deployment_checklist_keys : List String
  deriving DecidableEq, Repr

/-- One entry of `affected_resources`.  The outer Option records whether
the JSON key is present at all; the inner Option records a null value
(a mapping field that was absent becomes a present key holding null). -/
structure ResourceEntry where
  file : Option (Option String)
  mapping : Option (Option String)
  resource_type : Option (Option String)
  impact_level : Option (Option String)
  target_stack : Option (Option String)
  description : Option (Option String)
  deriving DecidableEq, Repr

/-- The change-metadata document built by `run_change_detection`.
Python dicts and sets are modelled as association lists / lists in
insertion order. -/
structure ChangeMetadata where
  changed_files : List String
  changed_files_count : Nat
  affected_resources : List ResourceEntry
  affected_mappings : List String
  deployment_checklist : List (String × Bool)
  required_actions : List String
  cloudformation_conditions : List (String × Bool)
  deriving DecidableEq, Repr

/- ### Python dict / set operations on association lists -/

/-- `d.get(k)` on a dict modelled as an association list. -/
def lookupKey (k : String) : List (String × α) → Option α
  | [] => none
  | kv :: rest => if kv.1 = k then some kv.2 else lookupKey k rest

/-- `d[k] = v`: update the value in place when the key exists, else
append the new key at the end (Python dict insertion order). -/
def setKey (m : List (String × α)) (k : String) (v : α) : List (String × α) :=
  match m with
  | [] => [(k, v)]
  | kv :: rest => if kv.1 = k then (k, v) :: rest else kv :: setKey rest k v

/-- `s.add(x)` on a set modelled as a duplicate-free list. -/
def setInsert (s : List String) (x : String) : List String :=
  if x ∈ s then s else s ++ [x]

/-- `s.update(xs)` on a set modelled as a duplicate-free list. -/
def setUnion (s : List String) (xs : List String) : List String :=
  xs.foldl setInsert s

/- ### Change Detector (change-detection.py) -/

/-- `is_excluded`: whether the normalized path matches any exclusion glob. -/
def is_excluded (file_path : String) (exclusion_patterns : List String) : Bool :=
  exclusion_patterns.any (fun pattern => fnmatch (normalizePath file_path) pattern)

/-- The per-mapping inner loop of `match_file_to_mapping`: succeed on the
first pattern that matches, as the break in the source does. -/
def patternsMatch (normalized : String) : List String → Bool
  | [] => false
  | p :: ps => if fnmatch normalized p then true else patternsMatch normalized ps

/-- `match_file_to_mapping`: all mappings one of whose patterns matches
the normalized path, in mapping declaration order, each at most once. -/
def match_file_to_mapping (file_path : String)
    (resource_mappings : List (String × MappingConfig)) :
    List (String × MappingConfig) :=
  resource_mappings.filter (fun m => patternsMatch (normalizePath file_path) m.2.patterns)

/-- The `affected_resources` entry appended for one (file, mapping) match:
all six keys are present, absent mapping fields yielding null values. -/
def mkEntry (file_path mapping_key : String) (mc : MappingConfig) : ResourceEntry :=
  { file := some (some file_path)
    mapping := some (some mapping_key)
    resource_type := some mc.resource_type
    impact_level := some mc.impact_level
    target_stack := some mc.target_stack
    description := some mc.description }

/-- The target-stack rule applied per match: the sentinel target sets
every present checklist key true; any other non-empty target writes that
single key true (adding it when absent, as Python dict assignment does);
an absent or empty target leaves the checklist alone. -/
def stackUpdate (checklist : List (String × Bool)) : Option String → List (String × Bool)
  | some ts =>
    if ts = "all" then checklist.map (fun kv => (kv.1, true))
    else if ts ≠ "" then setKey checklist ts true
    else checklist
  | none => checklist

/-- The body of the per-match loop in `run_change_detection` (lines
126-150): append the resource entry, record the mapping, union the
required actions, and update the deployment checklist. -/
def applyMatch (md : ChangeMetadata) (file_path mapping_key : String)
    (mc : MappingConfig) : ChangeMetadata :=
  { md with
    affected_resources := md.affected_resources ++ [mkEntry file_path mapping_key mc]
    affected_mappings := setInsert md.affected_mappings mapping_key
    required_actions := setUnion md.required_actions mc.required_actions
    deployment_checklist := stackUpdate md.deployment_checklist mc.target_stack }

/-- The body of the per-file loop in `run_change_detection`: skip the
file when excluded, otherwise apply every matching mapping in order. -/
def processFile (cfg : RuleSet) (md : ChangeMetadata) (file_path : String) : ChangeMetadata :=
  if is_excluded file_path cfg.exclusion_patterns then md
  else (match_file_to_mapping file_path cfg.resource_mappings).foldl
    (fun acc m => applyMatch acc file_path m.1 m.2) md

/-- The initial metadata dictionary of `run_change_detection`:
every checklist key from the configuration seeded false. -/
def initMetadata (cfg : RuleSet) (changed_files : List String) : ChangeMetadata :=
  { changed_files := changed_files
    changed_files_count := changed_files.length
    affected_resources := []
    affected_mappings := []
    deployment_checklist := cfg.deployment_checklist_keys.map (fun k => (k, false))
    required_actions := []
    cloudformation_conditions := [] }

/-- The main loop of `run_change_detection` over the changed files. -/
def detectFold (cfg : RuleSet) (files : List String) (md : ChangeMetadata) : ChangeMetadata :=
  files.foldl (processFile cfg) md

/-- `run_change_detection`, restricted to its pure core: the
configuration and the changed-file list in, the metadata document out. -/
def run_change_detection (cfg : RuleSet) (changed_files : List String) : ChangeMetadata :=
  detectFold cfg changed_files (initMetadata cfg changed_files)

/- ### Enhancer / Validator document (the JSON the scripts exchange) -/

/-- The metadata document as the Enhancer and the Validator read it from
disk.  An outer Option models a possibly missing JSON key where the
scripts distinguish presence; fields the scripts read with a defaulting
`.get` and never test for presence are modelled with the default. -/
structure MetaDoc where
  changed_files : List String
  affected_resources : Option (List ResourceEntry)
  deployment_checklist : Option (List (String × Bool))
  required_actions : List String
  cloudformation_conditions : Option (List (String × Bool))
  enhanced : Bool
  metadata_version : Option String
  has_affected_resources : Option Bool
  has_deployments : Option Bool
  is_valid : Option Bool
  deriving DecidableEq, Repr

/- ### Metadata Enhancer (prepare-change-meta.py) -/

/-- One step of the condition-building loop of `prepare_change_metadata`
(lines 55-58): a checklist key with a non-empty condition-mapping entry
writes that condition; anything else writes nothing. -/
def buildStep (condition_mapping : List (String × String))
    (acc : List (String × Bool)) (kv : String × Bool) : List (String × Bool) :=
  match lookupKey kv.1 condition_mapping with
  | some cf_condition => if cf_condition ≠ "" then setKey acc cf_condition kv.2 else acc
  | none => acc

/-- The condition-building loop of `prepare_change_metadata` over the
deployment checklist in order. -/
def buildConditions (deployment_checklist : List (String × Bool))
    (condition_mapping : List (String × String)) : List (String × Bool) :=
  deployment_checklist.foldl (buildStep condition_mapping) []

/-- `k in d` on a dict modelled as an association list. -/
def keyMem (k : String) (m : List (String × α)) : Bool :=
  (lookupKey k m).isSome

/-- `prepare_change_metadata`, restricted to its pure core: build the
CloudFormation conditions from the deployment checklist, apply the
hard-coded DeployApplicationStack composite, and add the derived flags
to a copy of the input document. -/
def prepare_change_metadata (metadata : MetaDoc)
    (condition_mapping : List (String × String)) : MetaDoc :=
  let deployment_checklist := metadata.deployment_checklist.getD []
  let conds0 := buildConditions deployment_checklist condition_mapping
  let conds :=
    if keyMem "application" deployment_checklist then
      setKey conds0 "DeployApplicationStack"
        ((lookupKey "application" deployment_checklist).getD false)
    else conds0
  let har := decide (0 < (metadata.affected_resources.getD []).length)
  let hd := deployment_checklist.any (fun kv => kv.2)
  { metadata with
    cloudformation_conditions := some conds
    metadata_version := some "2.0"
    enhanced := true
    has_affected_resources := some har
    has_deployments := some hd
    is_valid := some (har && hd) }

/- ### Impact Validator (validate-change-impact.py) -/

/-- The name a resource entry is reported under: the file value when the
key holds a string, the Python rendering of null, or the get default. -/
def resourceFileName (r : ResourceEntry) : String :=
  match r.file with
  | none => "unknown"
  | some none => "None"
  | some (some s) => s

/-- Check 1 message for a missing affected_resources field. -/
def missingResourcesError : String :=
  "Metadata missing affected_resources field"

/-- Check 1 message for a missing deployment_checklist field. -/
def missingChecklistError : String :=
  "Metadata missing deployment_checklist field"

/-- Check 2 message: files changed but nothing matched. -/
def coverageWarning (n : Nat) : String :=
  "Files changed (" ++ toString n ++ ") but no affected resources identified. " ++
  "All changes may have been excluded."

/-- Check 3 message: resources matched but the checklist is all false. -/
def checklistError (n : Nat) : String :=
  "Affected resources identified (" ++ toString n ++ ") but deployment checklist " ++
  "is empty. This indicates a configuration error in change-detection-config.yaml"

/-- Check 4 message: enhanced metadata without CloudFormation conditions. -/
def enhancedWarning : String :=
  "Enhanced metadata but no CloudFormation conditions generated. " ++
  "Template may not conditionally deploy resources."

/-- Check 6 message: CRITICAL resources with no required actions. -/
def criticalError (n : Nat) : String :=
  "Found " ++ toString n ++ " CRITICAL resources but no required actions defined. " ++
  "Build, test, or deployment steps may be missing."

/-- Check 5 of `validate_change_impact`: one warning per entry key that
is absent (a present key holding null raises nothing). -/
def resourceWarnings : List ResourceEntry → List String
  | [] => []
  | r :: rest =>
    (if r.resource_type.isNone then ["Resource missing resource_type: " ++ resourceFileName r] else [])
    ++ (if r.impact_level.isNone then ["Resource missing impact_level: " ++ resourceFileName r] else [])
    ++ resourceWarnings rest

/-- Whether check 6 counts an entry: `r.get(impact_level) == CRITICAL`,
null and absent keys both reading as not critical. -/
def isCritical (r : ResourceEntry) : Bool :=
  r.impact_level.getD none == some "CRITICAL"

/-- `validate_change_impact`, restricted to its pure core: the document
and the strict flag in, the verdict with the error and warning lists out. -/
def validate_change_impact (metadata : MetaDoc) (strict : Bool) :
    Bool × List String × List String :=
  let errors0 :=
    (if metadata.affected_resources.isNone then [missingResourcesError] else [])
    ++ (if metadata.deployment_checklist.isNone then [missingChecklistError] else [])
  if errors0.isEmpty then
    let affected_resources := metadata.affected_resources.getD []
    let deployment_checklist := metadata.deployment_checklist.getD []
    let changed_files := metadata.changed_files
    let w2 :=
      if !changed_files.isEmpty && affected_resources.isEmpty then
        [coverageWarning changed_files.length] else []
    let e3 :=
      if !affected_resources.isEmpty && !deployment_checklist.any (fun kv => kv.2) then
        [checklistError affected_resources.length] else []
    let w4 :=
      if metadata.enhanced && (metadata.cloudformation_conditions.getD []).isEmpty
          && !affected_resources.isEmpty then
        [enhancedWarning] else []
    let w5 := resourceWarnings affected_resources
    let critical_resources := affected_resources.filter isCritical
    let e6 :=
      if !critical_resources.isEmpty && metadata.required_actions.isEmpty then
        [criticalError critical_resources.length] else []
    let errors := errors0 ++ e3 ++ e6
    let warnings := w2 ++ w4 ++ w5
    (errors.isEmpty && (!strict || warnings.isEmpty), errors, warnings)
  else (false, errors0, [])

/- ### Association-list lemmas -/

theorem lookupKey_setKey (m : List (String × α)) (k c : String) (v : α) :
    lookupKey c (setKey m k v) = if k = c then some v else lookupKey c m := by
  induction m with
  | nil => simp [setKey, lookupKey]
  | cons kv rest ih =>
    by_cases h1 : kv.1 = k
    · by_cases h2 : k = c <;> simp [setKey, lookupKey, h1, h2]
    · by_cases h2 : kv.1 = c <;> by_cases h3 : k = c <;>
        simp_all [setKey, lookupKey, h1, h2, h3, ih]

theorem map_fst_setKey (m : List (String × α)) (k : String) (v : α) :
    (setKey m k v).map Prod.fst =
      if k ∈ m.map Prod.fst then m.map Prod.fst else m.map Prod.fst ++ [k] := by
  induction m with
  | nil => simp [setKey]
  | cons kv rest ih =>
    by_cases h : kv.1 = k
    · simp [setKey, h]
    · simp only [setKey, if_neg h, List.map_cons, ih]
      by_cases hk : k ∈ rest.map Prod.fst <;>
        simp [hk, Ne.symm h, List.mem_cons]

theorem lookupKey_map_true (cl : List (String × Bool)) (k : String) :
    lookupKey k (cl.map (fun kv => (kv.1, true))) = (lookupKey k cl).map (fun _ => true) := by
  induction cl with
  | nil => rfl
  | cons kv rest ih => by_cases h : kv.1 = k <;> simp [lookupKey, h, ih]

/- ### Checklist-update lemmas -/

theorem map_fst_stackUpdate (cl : List (String × Bool)) (ts : Option String) :
    (stackUpdate cl ts).map Prod.fst = cl.map Prod.fst ∨
    ∃ s, ts = some s ∧ (stackUpdate cl ts).map Prod.fst = cl.map Prod.fst ++ [s] := by
  cases ts with
  | none => exact Or.inl rfl
  | some s =>
    by_cases h1 : s = "all"
    · left; simp [stackUpdate, h1, List.map_map, Function.comp]
    · by_cases h2 : s = ""
      · left; simp [stackUpdate, h1, h2]
      · rw [stackUpdate, if_neg h1, if_pos h2, map_fst_setKey]
        by_cases hk : s ∈ cl.map Prod.fst
        · exact Or.inl (by simp [hk])
        · exact Or.inr ⟨s, rfl, by simp [hk]⟩

theorem lookupKey_stackUpdate_true (cl : List (String × Bool)) (ts : Option String)
    (k : String) (h : lookupKey k cl = some true) :
    lookupKey k (stackUpdate cl ts) = some true := by
  cases ts with
  | none => exact h
  | some s =>
    by_cases h1 : s = "all"
    · simp [stackUpdate, h1, lookupKey_map_true, h]
    · by_cases h2 : s = ""
      · simpa [stackUpdate, h1, h2] using h
      · rw [stackUpdate, if_neg h1, if_pos h2, lookupKey_setKey]
        by_cases hk : s = k <;> simp [hk, h]

theorem stackUpdate_all_values (cl : List (String × Bool)) (kv : String × Bool)
    (h : kv ∈ stackUpdate cl (some "all")) : kv.2 = true := by
  simp only [stackUpdate, if_pos rfl] at h
  obtain ⟨x, -, rfl⟩ := List.mem_map.mp h
  rfl

/- ### Per-match and per-file fold lemmas -/

theorem detectFold_cons (cfg : RuleSet) (f : String) (rest : List String)
    (md : ChangeMetadata) :
    detectFold cfg (f :: rest) md = detectFold cfg rest (processFile cfg md f) := rfl

theorem processFile_excluded (cfg : RuleSet) (md : ChangeMetadata) (f : String)
    (h : is_excluded f cfg.exclusion_patterns = true) :
    processFile cfg md f = md := by
  simp [processFile, h]

theorem matchFold_resources (f : String) (l : List (String × MappingConfig))
    (md : ChangeMetadata) :
    (l.foldl (fun acc m => applyMatch acc f m.1 m.2) md).affected_resources
      = md.affected_resources ++ l.map (fun m => mkEntry f m.1 m.2) := by
  induction l generalizing md with
  | nil => simp
  | cons m rest ih => rw [List.foldl_cons, ih]; simp [applyMatch]

theorem processFile_resources (cfg : RuleSet) (md : ChangeMetadata) (f : String)
    (h : is_excluded f cfg.exclusion_patterns = false) :
    (processFile cfg md f).affected_resources
      = md.affected_resources
        ++ (match_file_to_mapping f cfg.resource_mappings).map (fun m => mkEntry f m.1 m.2) := by
  simp [processFile, h, matchFold_resources]

/- ### The accumulator fields a file contributes to -/

/-- Equality of two metadata documents on every field the per-file loop
reads or writes (everything except the diff snapshot itself). -/
def sameAccum (a b : ChangeMetadata) : Prop :=
  a.affected_resources = b.affected_resources ∧
  a.affected_mappings = b.affected_mappings ∧
  a.deployment_checklist = b.deployment_checklist ∧
  a.required_actions = b.required_actions ∧
  a.cloudformation_conditions = b.cloudformation_conditions

theorem sameAccum_applyMatch {a b : ChangeMetadata} (h : sameAccum a b)
    (f mk : String) (mc : MappingConfig) :
    sameAccum (applyMatch a f mk mc) (applyMatch b f mk mc) := by
  obtain ⟨h1, h2, h3, h4, h5⟩ := h
  exact ⟨by simp [applyMatch, h1], by simp [applyMatch, h2],
    by simp [applyMatch, h3], by simp [applyMatch, h4], by simp [applyMatch, h5]⟩

theorem sameAccum_matchFold {a b : ChangeMetadata} (h : sameAccum a b)
    (f : String) (l : List (String × MappingConfig)) :
    sameAccum (l.foldl (fun acc m => applyMatch acc f m.1 m.2) a)
      (l.foldl (fun acc m => applyMatch acc f m.1 m.2) b) := by
  induction l generalizing a b with
  | nil => exact h
  | cons m rest ih => exact ih (sameAccum_applyMatch h f m.1 m.2)

theorem sameAccum_processFile {a b : ChangeMetadata} (h : sameAccum a b)
    (cfg : RuleSet) (f : String) :
    sameAccum (processFile cfg a f) (processFile cfg b f) := by
  by_cases hx : is_excluded f cfg.exclusion_patterns
  · simpa [processFile, hx] using h
  · simpa [processFile, hx] using sameAccum_matchFold h f _

theorem sameAccum_detectFold {a b : ChangeMetadata} (h : sameAccum a b)
    (cfg : RuleSet) (files : List String) :
    sameAccum (detectFold cfg files a) (detectFold cfg files b) := by
  induction files generalizing a b with
  | nil => exact h
  | cons f rest ih => exact ih (sameAccum_processFile h cfg f)

theorem detectFold_filter (cfg : RuleSet) (files : List String) (md : ChangeMetadata) :
    detectFold cfg files md
      = detectFold cfg (files.filter (fun f => !is_excluded f cfg.exclusion_patterns)) md := by
  induction files generalizing md with
  | nil => rfl
  | cons f rest ih =>
    by_cases hx : is_excluded f cfg.exclusion_patterns
    · rw [detectFold_cons, processFile_excluded cfg md f hx, List.filter_cons]
      simp [hx, ih]
    · rw [detectFold_cons, List.filter_cons]
      simp only [hx, Bool.not_false, if_pos]
      rw [detectFold_cons, ih]

/- ### Which entries the Detector emits -/

theorem detectFold_resources_spec (cfg : RuleSet) (files : List String)
    (md : ChangeMetadata) (e : ResourceEntry)
    (he : e ∈ (detectFold cfg files md).affected_resources) :
    e ∈ md.affected_resources ∨
    ∃ f mk mc, f ∈ files ∧ is_excluded f cfg.exclusion_patterns = false ∧
      (mk, mc) ∈ match_file_to_mapping f cfg.resource_mappings ∧ e = mkEntry f mk mc := by
  induction files generalizing md with
  | nil => exact Or.inl he
  | cons f rest ih =>
    rw [detectFold_cons] at he
    rcases ih (processFile cfg md f) he with h | ⟨g, mk, mc, hg, hex, hm, he2⟩
    · by_cases hx : is_excluded f cfg.exclusion_patterns
      · rw [processFile_excluded cfg md f hx] at h
        exact Or.inl h
      · rw [processFile_resources cfg md f (by simpa using hx)] at h
        rcases List.mem_append.mp h with h2 | h2
        · exact Or.inl h2
        · obtain ⟨m, hm, rfl⟩ := List.mem_map.mp h2
          exact Or.inr ⟨f, m.1, m.2, List.mem_cons_self f rest, by simpa using hx,
            by simpa using hm, rfl⟩
    · exact Or.inr ⟨g, mk, mc, List.mem_cons_of_mem f hg, hex, hm, he2⟩

/- ### Checklist monotonicity lemmas -/

theorem lookupKey_applyMatch_true (md : ChangeMetadata) (f mk : String)
    (mc : MappingConfig) (k : String)
    (h : lookupKey k md.deployment_checklist = some true) :
    lookupKey k (applyMatch md f mk mc).deployment_checklist = some true :=
  lookupKey_stackUpdate_true md.deployment_checklist mc.target_stack k h

theorem lookupKey_matchFold_true (f : String) (l : List (String × MappingConfig))
    (md : ChangeMetadata) (k : String)
    (h : lookupKey k md.deployment_checklist = some true) :
    lookupKey k ((l.foldl (fun acc m => applyMatch acc f m.1 m.2) md)).deployment_checklist
      = some true := by
  induction l generalizing md with
  | nil => exact h
  | cons m rest ih => exact ih _ (lookupKey_applyMatch_true md f m.1 m.2 k h)

theorem lookupKey_processFile_true (cfg : RuleSet) (md : ChangeMetadata)
    (f k : String) (h : lookupKey k md.deployment_checklist = some true) :
    lookupKey k (processFile cfg md f).deployment_checklist = some true := by
  by_cases hx : is_excluded f cfg.exclusion_patterns
  · simpa [processFile, hx] using h
  · simpa [processFile, hx] using lookupKey_matchFold_true f _ md k h

theorem lookupKey_detectFold_true (cfg : RuleSet) (files : List String)
    (md : ChangeMetadata) (k : String)
    (h : lookupKey k md.deployment_checklist = some true) :
    lookupKey k (detectFold cfg files md).deployment_checklist = some true := by
  induction files generalizing md with
  | nil => exact h
  | cons f rest ih => exact ih _ (lookupKey_processFile_true cfg md f k h)

/- ### Checklist key-set invariant -/

/-- Invariant of the per-file loop on the checklist key list: the seeded
keys stay an initial segment in order, and every key is a seeded key or
the target stack of some configured mapping. -/
def keysInv (cfg : RuleSet) (md : ChangeMetadata) : Prop :=
  (∃ t, md.deployment_checklist.map Prod.fst = cfg.deployment_checklist_keys ++ t) ∧
  ∀ k ∈ md.deployment_checklist.map Prod.fst,
    k ∈ cfg.deployment_checklist_keys ∨
    ∃ m, m ∈ cfg.resource_mappings ∧ m.2.target_stack = some k

theorem keysInv_applyMatch {cfg : RuleSet} {md : ChangeMetadata}
    (h : keysInv cfg md) (f mk : String) (mc : MappingConfig)
    (hm : (mk, mc) ∈ cfg.resource_mappings) :
    keysInv cfg (applyMatch md f mk mc) := by
  obtain ⟨⟨t, ht⟩, h2⟩ := h
  have hk : (applyMatch md f mk mc).deployment_checklist
      = stackUpdate md.deployment_checklist mc.target_stack := rfl
  rcases map_fst_stackUpdate md.deployment_checklist mc.target_stack with hu | ⟨s, hs, hu⟩
  · exact ⟨⟨t, by rw [hk, hu, ht]⟩, fun k hmem => h2 k (by rwa [hk, hu] at hmem)⟩
  · refine ⟨⟨t ++ [s], by rw [hk, hu, ht, List.append_assoc]⟩, fun k hmem => ?_⟩
    rw [hk, hu] at hmem
    rcases List.mem_append.mp hmem with hmem2 | hmem2
    · exact h2 k hmem2
    · have : k = s := List.mem_singleton.mp hmem2
      subst this
      exact Or.inr ⟨(mk, mc), hm, hs⟩

theorem keysInv_matchFold {cfg : RuleSet} {md : ChangeMetadata}
    (h : keysInv cfg md) (f : String) (l : List (String × MappingConfig))
    (hl : ∀ m ∈ l, m ∈ cfg.resource_mappings) :
    keysInv cfg (l.foldl (fun acc m => applyMatch acc f m.1 m.2) md) := by
  induction l generalizing md with
  | nil => exact h
  | cons m rest ih =>
    exact ih (keysInv_applyMatch h f m.1 m.2 (hl m (List.mem_cons_self m rest)))
      (fun m2 hm2 => hl m2 (List.mem_cons_of_mem m hm2))

theorem keysInv_processFile {cfg : RuleSet} {md : ChangeMetadata}
    (h : keysInv cfg md) (f : String) :
    keysInv cfg (processFile cfg md f) := by
  by_cases hx : is_excluded f cfg.exclusion_patterns
  · simpa [processFile, hx] using h
  · simp only [processFile, hx, Bool.false_eq_true, if_false]
    exact keysInv_matchFold h f _
      (fun m hm => (List.mem_filter.mp hm).1)

theorem keysInv_detectFold {cfg : RuleSet} {md : ChangeMetadata}
    (h : keysInv cfg md) (files : List String) :
    keysInv cfg (detectFold cfg files md) := by
  induction files generalizing md with
  | nil => exact h
  | cons f rest ih => exact ih (keysInv_processFile h f)

theorem map_fst_seed (l : List String) :
    (l.map (fun k => (k, false))).map Prod.fst = l := by
  induction l with
  | nil => rfl
  | cons k rest ih => simp [ih]

theorem initMetadata_keys (cfg : RuleSet) (files : List String) :
    (initMetadata cfg files).deployment_checklist.map Prod.fst
      = cfg.deployment_checklist_keys :=
  map_fst_seed cfg.deployment_checklist_keys

/- ### Concrete fixtures -/

/-- Scenario A mapping: lambda sources, sentinel target stack, CRITICAL. -/
def mcA : MappingConfig :=
  { patterns := ["lambda/*.py"], resource_type := some "lambda"
    impact_level := some "CRITICAL", target_stack := some "all"
    description := some "Lambda function code"
    required_actions := ["build", "deploy"] }

/-- Scenario A rule set: markdown excluded, one mapping, two stacks. -/
def cfgA : RuleSet :=
  { exclusion_patterns := ["*.md"], resource_mappings := [("app-lambda", mcA)]
    deployment_checklist_keys := ["application", "storage"] }

/-- A mapping whose target stack names no seeded checklist key. -/
def mcUnknown : MappingConfig :=
  { patterns := ["*"], resource_type := none, impact_level := none
    target_stack := some "unknown", description := none, required_actions := [] }

/-- Rule set around `mcUnknown`: one seeded key, no exclusions. -/
def cfgUnknown : RuleSet :=
  { exclusion_patterns := [], resource_mappings := [("m", mcUnknown)]
    deployment_checklist_keys := ["app"] }

/- ### Pattern-matching characterization -/

theorem resourceWarnings_nil (l : List ResourceEntry)
    (h : ∀ r ∈ l, r.resource_type.isSome ∧ r.impact_level.isSome) :
    resourceWarnings l = [] := by
  induction l with
  | nil => rfl
  | cons r rest ih =>
    obtain ⟨h1, h2⟩ := h r (List.mem_cons_self r rest)
    obtain ⟨v1, hv1⟩ := Option.isSome_iff_exists.mp h1
    obtain ⟨v2, hv2⟩ := Option.isSome_iff_exists.mp h2
    simp only [resourceWarnings, hv1, hv2, Option.isNone_some, Bool.false_eq_true,
      if_false, List.nil_append]
    exact ih (fun r2 hr2 => h r2 (List.mem_cons_of_mem r hr2))

theorem patternsMatch_iff (normalized : String) (ps : List String) :
    patternsMatch normalized ps = true ↔ ∃ p, p ∈ ps ∧ fnmatch normalized p = true := by
  induction ps with
  | nil => simp [patternsMatch]
  | cons p rest ih =>
    by_cases h : fnmatch normalized p
    · refine ⟨fun _ => ⟨p, List.mem_cons_self p rest, h⟩, fun _ => ?_⟩
      simp [patternsMatch, h]
    · simp only [patternsMatch, h, Bool.false_eq_true, if_false, ih]
      constructor
      · rintro ⟨q, hq, hfq⟩
        exact ⟨q, List.mem_cons_of_mem p hq, hfq⟩
      · rintro ⟨q, hq, hfq⟩
        rcases List.mem_cons.mp hq with rfl | hq2
        · exact absurd hfq h
        · exact ⟨q, hq2, hfq⟩

/- ### Claim theorems -/

/-- C1, counterexample: a matched mapping whose target stack is the name
`unknown`, absent from the seeded checklist keys, does not leave the
checklist unchanged — the run adds a new checklist key `unknown` set
true, so the output key set is not the seeded key set. -/
theorem detect_unknown_stack_counterexample :
    (run_change_detection cfgUnknown ["x"]).deployment_checklist
        = [("app", false), ("unknown", true)] ∧
    (run_change_detection cfgUnknown ["x"]).deployment_checklist.map Prod.fst
        ≠ cfgUnknown.deployment_checklist_keys := by
  constructor
  · rfl
  · decide

/-- C1, amended: the seeded checklist keys always remain an initial
segment of the output checklist keys (none is ever removed), and every
output checklist key is either a seeded key or the target stack of some
configured mapping — a matched mapping whose target stack is an unknown
name adds that name as a new key set true instead of being ignored. -/
theorem detect_checklist_keys (cfg : RuleSet) (files : List String) :
    (∃ t, (run_change_detection cfg files).deployment_checklist.map Prod.fst
        = cfg.deployment_checklist_keys ++ t) ∧
    ∀ k ∈ (run_change_detection cfg files).deployment_checklist.map Prod.fst,
      k ∈ cfg.deployment_checklist_keys ∨
      ∃ m, m ∈ cfg.resource_mappings ∧ m.2.target_stack = some k := by
  have h0 : keysInv cfg (initMetadata cfg files) := by
    refine ⟨⟨[], by rw [initMetadata_keys, List.append_nil]⟩, fun k hk => ?_⟩
    rw [initMetadata_keys] at hk
    exact Or.inl hk
  exact keysInv_detectFold h0 files

/-- Witness for the amended C1 theorem: at the `cfgUnknown` rule set the
added key `unknown` is accounted for by the mapping that targets it. -/
theorem detect_checklist_keys_witness :
    "unknown" ∈ cfgUnknown.deployment_checklist_keys ∨
    ∃ m, m ∈ cfgUnknown.resource_mappings ∧ m.2.target_stack = some "unknown" :=
  (detect_checklist_keys cfgUnknown ["x"]).2 "unknown" (by decide)

/-- C5: within one run the deployment checklist is monotone — every
seeded value starts false, a match whose target stack is the sentinel
`all` leaves every checklist entry true, and once a key reads true no
later step of the same run (no later file, match or target-stack write)
ever resets it to false. -/
theorem detect_checklist_monotone (cfg : RuleSet) (files : List String) :
    (∀ kv ∈ (initMetadata cfg files).deployment_checklist, kv.2 = false) ∧
    (∀ (md : ChangeMetadata) (f mk : String) (mc : MappingConfig),
      mc.target_stack = some "all" →
      ∀ kv ∈ (applyMatch md f mk mc).deployment_checklist, kv.2 = true) ∧
    (∀ (md : ChangeMetadata) (later : List String) (k : String),
      lookupKey k md.deployment_checklist = some true →
      lookupKey k (detectFold cfg later md).deployment_checklist = some true) := by
  refine ⟨?_, ?_, ?_⟩
  · intro kv hkv
    simp only [initMetadata] at hkv
    obtain ⟨a, -, rfl⟩ := List.mem_map.mp hkv
    rfl
  · intro md f mk mc hts kv hkv
    have hk : (applyMatch md f mk mc).deployment_checklist
        = stackUpdate md.deployment_checklist mc.target_stack := rfl
    rw [hk, hts] at hkv
    exact stackUpdate_all_values md.deployment_checklist kv hkv
  · intro md later k h
    exact lookupKey_detectFold_true cfg later md k h

/-- Witness for C5: after a run of `cfgA` on a lambda file set the
`storage` key true via the sentinel, a later fold over more files keeps
it true. -/
theorem detect_checklist_monotone_witness :
    lookupKey "storage" (detectFold cfgA ["README.md", "other.txt"]
        (run_change_detection cfgA ["lambda/index.py"])).deployment_checklist
      = some true :=
  (detect_checklist_monotone cfgA ["lambda/index.py"]).2.2
    (run_change_detection cfgA ["lambda/index.py"]) ["README.md", "other.txt"]
    "storage" (by decide)

/-- C6: every file named by an output `affected_resources` entry is a
non-excluded element of the changed-file list, and excluded files
contribute nothing at all — the run over the full list agrees with the
run over the list with excluded files removed on every accumulated field
(resources, mappings, checklist, actions, conditions). -/
theorem detect_files_and_exclusions (cfg : RuleSet) (files : List String) :
    (∀ e ∈ (run_change_detection cfg files).affected_resources,
      ∃ f, f ∈ files ∧ is_excluded f cfg.exclusion_patterns = false ∧
        e.file = some (some f)) ∧
    sameAccum (run_change_detection cfg files)
      (run_change_detection cfg
        (files.filter (fun f => !is_excluded f cfg.exclusion_patterns))) := by
  constructor
  · intro e he
    rcases detectFold_resources_spec cfg files _ e he with h | ⟨f, mk, mc, hf, hex, -, rfl⟩
    · simp [initMetadata] at h
    · exact ⟨f, hf, hex, rfl⟩
  · rw [run_change_detection, detectFold_filter, run_change_detection]
    refine sameAccum_detectFold ?_ cfg _
    exact ⟨rfl, rfl, rfl, rfl, rfl⟩

/-- Witness for C6: the one entry produced by `cfgA` on a matching file
plus an excluded file names the matching changed file. -/
theorem detect_files_and_exclusions_witness :
    ∃ f, f ∈ ["lambda/index.py", "README.md"] ∧
      is_excluded f cfgA.exclusion_patterns = false ∧
      (mkEntry "lambda/index.py" "app-lambda" mcA).file = some (some f) :=
  (detect_files_and_exclusions cfgA ["lambda/index.py", "README.md"]).1
    (mkEntry "lambda/index.py" "app-lambda" mcA) (by decide)

/-- C7: a mapping matches a file exactly when one of its patterns
glob-matches the normalized path; the match list keeps declaration order
with each mapping at most once (several matching patterns of one mapping
still yield one element), and a non-excluded file appends exactly one
`affected_resources` entry per matching mapping. -/
theorem match_file_to_mapping_spec (file_path : String)
    (resource_mappings : List (String × MappingConfig)) :
    (∀ mk mc, (mk, mc) ∈ match_file_to_mapping file_path resource_mappings ↔
      (mk, mc) ∈ resource_mappings ∧
        ∃ p, p ∈ mc.patterns ∧ fnmatch (normalizePath file_path) p = true) ∧
    ((resource_mappings.map Prod.fst).Nodup →
      ((match_file_to_mapping file_path resource_mappings).map Prod.fst).Nodup) ∧
    (∀ (cfg : RuleSet) (md : ChangeMetadata),
      cfg.resource_mappings = resource_mappings →
      is_excluded file_path cfg.exclusion_patterns = false →
      (processFile cfg md file_path).affected_resources
        = md.affected_resources
          ++ (match_file_to_mapping file_path resource_mappings).map
              (fun m => mkEntry file_path m.1 m.2)) := by
  refine ⟨?_, ?_, ?_⟩
  · intro mk mc
    rw [match_file_to_mapping, List.mem_filter]
    constructor
    · rintro ⟨hmem, hp⟩
      exact ⟨hmem, (patternsMatch_iff (normalizePath file_path) mc.patterns).mp hp⟩
    · rintro ⟨hmem, hp⟩
      exact ⟨hmem, (patternsMatch_iff (normalizePath file_path) mc.patterns).mpr hp⟩
  · intro h
    exact List.Nodup.sublist
      ((List.filter_sublist resource_mappings).map Prod.fst) h
  · intro cfg md hcfg hex
    rw [processFile_resources cfg md file_path hex, hcfg]

/-- Witness for C7: the scenario-A mapping matches the lambda file, and
processing that file appends exactly its entry. -/
theorem match_file_to_mapping_spec_witness :
    ("app-lambda", mcA) ∈ cfgA.resource_mappings ∧
      (∃ p, p ∈ mcA.patterns ∧ fnmatch (normalizePath "lambda/index.py") p = true) :=
  ((match_file_to_mapping_spec "lambda/index.py" cfgA.resource_mappings).1
    "app-lambda" mcA).mp (by decide)

/-- C10: every Detector-produced `affected_resources` entry carries all
six keys (absent mapping fields become present keys holding null), so
the Validator completeness check, which tests key absence only, emits no
Resource-missing warning on Detector output. -/
theorem detect_entries_complete (cfg : RuleSet) (files : List String) :
    (∀ e ∈ (run_change_detection cfg files).affected_resources,
      e.file.isSome ∧ e.mapping.isSome ∧ e.resource_type.isSome ∧
      e.impact_level.isSome ∧ e.target_stack.isSome ∧ e.description.isSome) ∧
    resourceWarnings (run_change_detection cfg files).affected_resources = [] := by
  have hall : ∀ e ∈ (run_change_detection cfg files).affected_resources,
      e.file.isSome ∧ e.mapping.isSome ∧ e.resource_type.isSome ∧
      e.impact_level.isSome ∧ e.target_stack.isSome ∧ e.description.isSome := by
    intro e he
    rcases detectFold_resources_spec cfg files _ e he with h | ⟨f, mk, mc, -, -, -, rfl⟩
    · simp [initMetadata] at h
    · exact ⟨rfl, rfl, rfl, rfl, rfl, rfl⟩
  refine ⟨hall, resourceWarnings_nil _ (fun r hr => ?_)⟩
  obtain ⟨-, -, h3, h4, -, -⟩ := hall r hr
  exact ⟨h3, h4⟩

/-- Witness for C10: the entry produced for the scenario-A lambda file
has all six keys present. -/
theorem detect_entries_complete_witness :
    (mkEntry "lambda/index.py" "app-lambda" mcA).file.isSome ∧
    (mkEntry "lambda/index.py" "app-lambda" mcA).mapping.isSome ∧
    (mkEntry "lambda/index.py" "app-lambda" mcA).resource_type.isSome ∧
    (mkEntry "lambda/index.py" "app-lambda" mcA).impact_level.isSome ∧
    (mkEntry "lambda/index.py" "app-lambda" mcA).target_stack.isSome ∧
    (mkEntry "lambda/index.py" "app-lambda" mcA).description.isSome :=
  (detect_entries_complete cfgA ["lambda/index.py"]).1
    (mkEntry "lambda/index.py" "app-lambda" mcA) (by decide)

/- ### Validator main-branch characterization -/

/-- The error list of `validate_change_impact` past the structural gate:
the checklist-consistency error then the critical-action error. -/
def mainErrors (metadata : MetaDoc) (ars : List ResourceEntry)
    (cl : List (String × Bool)) : List String :=
  (if !ars.isEmpty && !cl.any (fun kv => kv.2) then [checklistError ars.length] else [])
  ++ (if !(ars.filter isCritical).isEmpty && metadata.required_actions.isEmpty then
      [criticalError (ars.filter isCritical).length] else [])

/-- The warning list of `validate_change_impact` past the structural
gate: coverage, enhancement, then per-resource completeness warnings. -/
def mainWarnings (metadata : MetaDoc) (ars : List ResourceEntry) : List String :=
  (if !metadata.changed_files.isEmpty && ars.isEmpty then
      [coverageWarning metadata.changed_files.length] else [])
  ++ (if metadata.enhanced && (metadata.cloudformation_conditions.getD []).isEmpty
        && !ars.isEmpty then [enhancedWarning] else [])
  ++ resourceWarnings ars

theorem validate_main (metadata : MetaDoc) (strict : Bool)
    (ars : List ResourceEntry) (cl : List (String × Bool))
    (har : metadata.affected_resources = some ars)
    (hdc : metadata.deployment_checklist = some cl) :
    validate_change_impact metadata strict
      = ((mainErrors metadata ars cl).isEmpty
            && (!strict || (mainWarnings metadata ars).isEmpty),
         mainErrors metadata ars cl, mainWarnings metadata ars) := by
  rw [validate_change_impact, har, hdc]
  rfl

/- ### Message-shape lemmas -/

theorem isEmpty_append_singleton (l : List String) (a : String) :
    (l ++ [a]).isEmpty = false := by
  cases l <;> rfl

theorem coverageWarning_ne_criticalError (n m : Nat) :
    coverageWarning n ≠ criticalError m := by
  intro h
  rw [coverageWarning, criticalError] at h
  have h2 := congrArg String.data h
  simp only [String.data_append, List.append_assoc] at h2
  have h3 := congrArg (fun l => l.take 2) h2
  simp only at h3
  rw [List.take_append_of_le_length (by decide),
    List.take_append_of_le_length (by decide)] at h3
  exact absurd h3 (by decide)

theorem enhancedWarning_ne_criticalError (m : Nat) :
    enhancedWarning ≠ criticalError m := by
  intro h
  rw [enhancedWarning, criticalError] at h
  have h2 := congrArg String.data h
  simp only [String.data_append, List.append_assoc] at h2
  have h3 := congrArg (fun l => l.take 2) h2
  simp only at h3
  rw [List.take_append_of_le_length (by decide),
    List.take_append_of_le_length (by decide)] at h3
  exact absurd h3 (by decide)

theorem typeWarning_ne_criticalError (f : String) (m : Nat) :
    ("Resource missing resource_type: " ++ f) ≠ criticalError m := by
  intro h
  rw [criticalError] at h
  have h2 := congrArg String.data h
  simp only [String.data_append, List.append_assoc] at h2
  have h3 := congrArg (fun l => l.take 2) h2
  simp only at h3
  rw [List.take_append_of_le_length (by decide),
    List.take_append_of_le_length (by decide)] at h3
  exact absurd h3 (by decide)

theorem impactWarning_ne_criticalError (f : String) (m : Nat) :
    ("Resource missing impact_level: " ++ f) ≠ criticalError m := by
  intro h
  rw [criticalError] at h
  have h2 := congrArg String.data h
  simp only [String.data_append, List.append_assoc] at h2
  have h3 := congrArg (fun l => l.take 2) h2
  simp only at h3
  rw [List.take_append_of_le_length (by decide),
    List.take_append_of_le_length (by decide)] at h3
  exact absurd h3 (by decide)

theorem resourceWarnings_shapes (l : List ResourceEntry) (w : String)
    (hw : w ∈ resourceWarnings l) :
    ∃ f, w = "Resource missing resource_type: " ++ f
      ∨ w = "Resource missing impact_level: " ++ f := by
  induction l with
  | nil => cases hw
  | cons r rest ih =>
    rw [resourceWarnings] at hw
    rcases List.mem_append.mp hw with h1 | h2
    · rcases List.mem_append.mp h1 with ha | hb
      · by_cases hc : r.resource_type.isNone
        · rw [if_pos hc] at ha
          exact ⟨resourceFileName r, Or.inl (List.mem_singleton.mp ha)⟩
        · rw [if_neg hc] at ha
          cases ha
      · by_cases hc : r.impact_level.isNone
        · rw [if_pos hc] at hb
          exact ⟨resourceFileName r, Or.inr (List.mem_singleton.mp hb)⟩
        · rw [if_neg hc] at hb
          cases hb
    · exact ih h2

theorem mainWarnings_shapes (metadata : MetaDoc) (ars : List ResourceEntry)
    (w : String) (hw : w ∈ mainWarnings metadata ars) :
    (∃ n, w = coverageWarning n) ∨ w = enhancedWarning ∨
    ∃ f, w = "Resource missing resource_type: " ++ f
      ∨ w = "Resource missing impact_level: " ++ f := by
  rw [mainWarnings] at hw
  rcases List.mem_append.mp hw with h1 | h2
  · rcases List.mem_append.mp h1 with ha | hb
    · by_cases hc : !metadata.changed_files.isEmpty && ars.isEmpty
      · rw [if_pos hc] at ha
        exact Or.inl ⟨metadata.changed_files.length, List.mem_singleton.mp ha⟩
      · rw [if_neg hc] at ha
        cases ha
    · by_cases hc : metadata.enhanced && (metadata.cloudformation_conditions.getD []).isEmpty
          && !ars.isEmpty
      · rw [if_pos hc] at hb
        exact Or.inr (Or.inl (List.mem_singleton.mp hb))
      · rw [if_neg hc] at hb
        cases hb
  · exact Or.inr (Or.inr (resourceWarnings_shapes ars w h2))

/-- C3: for every document and strict flag the verdict equals: the error
list is empty and (strict is off or the warning list is empty); in
particular with strict off warnings alone never make the verdict false. -/
theorem validate_ok_iff (metadata : MetaDoc) (strict : Bool) :
    (validate_change_impact metadata strict).1
      = ((validate_change_impact metadata strict).2.1.isEmpty
         && (!strict || (validate_change_impact metadata strict).2.2.isEmpty)) := by
  rcases har : metadata.affected_resources with _ | ars <;>
    rcases hdc : metadata.deployment_checklist with _ | cl <;>
      rw [validate_change_impact, har, hdc] <;> rfl

/-- C4: past the structural gate, a CRITICAL entry together with an
empty requiredActions list always appends the critical-action message to
the error list — never to the warning list — and the verdict is false
for strict and non-strict mode alike. -/
theorem validate_critical_error (metadata : MetaDoc) (strict : Bool)
    (ars : List ResourceEntry) (cl : List (String × Bool))
    (har : metadata.affected_resources = some ars)
    (hdc : metadata.deployment_checklist = some cl)
    (r : ResourceEntry) (hr : r ∈ ars) (hcrit : isCritical r = true)
    (hact : metadata.required_actions = []) :
    criticalError (ars.filter isCritical).length
        ∈ (validate_change_impact metadata strict).2.1 ∧
    (∀ w ∈ (validate_change_impact metadata strict).2.2,
      w ≠ criticalError (ars.filter isCritical).length) ∧
    (validate_change_impact metadata strict).1 = false := by
  have hmem : r ∈ ars.filter isCritical := List.mem_filter.mpr ⟨hr, hcrit⟩
  have hfilter : (ars.filter isCritical).isEmpty = false := by
    cases hfe : ars.filter isCritical with
    | nil => rw [hfe] at hmem; exact absurd hmem (List.not_mem_nil r)
    | cons a l => rfl
  have he : mainErrors metadata ars cl
      = (if !ars.isEmpty && !cl.any (fun kv => kv.2) then [checklistError ars.length] else [])
        ++ [criticalError (ars.filter isCritical).length] := by
    rw [mainErrors, hact, hfilter]
    rfl
  rw [validate_main metadata strict ars cl har hdc]
  refine ⟨?_, ?_, ?_⟩
  · show criticalError (ars.filter isCritical).length ∈ mainErrors metadata ars cl
    rw [he]
    exact List.mem_append_right _ (List.mem_singleton.mpr rfl)
  · show ∀ w ∈ mainWarnings metadata ars, w ≠ criticalError (ars.filter isCritical).length
    intro w hw
    rcases mainWarnings_shapes metadata ars w hw with ⟨n, rfl⟩ | rfl | ⟨f, rfl | rfl⟩
    · exact coverageWarning_ne_criticalError n _
    · exact enhancedWarning_ne_criticalError _
    · exact typeWarning_ne_criticalError f _
    · exact impactWarning_ne_criticalError f _
  · show ((mainErrors metadata ars cl).isEmpty && _) = false
    rw [he, isEmpty_append_singleton]
    rfl

/-- C8: a document missing affectedResources or deploymentChecklist
short-circuits validation — the result is false with exactly the
structural error(s) for the missing field(s) and no warnings, no later
check being evaluated. -/
theorem validate_structural_gate (metadata : MetaDoc) (strict : Bool)
    (h : metadata.affected_resources = none ∨ metadata.deployment_checklist = none) :
    validate_change_impact metadata strict
      = (false,
         (if metadata.affected_resources.isNone then [missingResourcesError] else [])
           ++ (if metadata.deployment_checklist.isNone then [missingChecklistError] else []),
         []) := by
  rw [validate_change_impact]
  have hne : ((if metadata.affected_resources.isNone then [missingResourcesError] else [])
      ++ (if metadata.deployment_checklist.isNone then [missingChecklistError] else [])).isEmpty
      = false := by
    rcases h with h | h
    · simp [h]
    · cases hx : metadata.affected_resources.isNone <;> simp [h, hx]
  simp only [hne, Bool.false_eq_true, if_false]

/-- A document with one CRITICAL entry and an empty action list. -/
def docCritical : MetaDoc :=
  { changed_files := ["lambda/index.py"]
    affected_resources := some [mkEntry "lambda/index.py" "app-lambda" mcA]
    deployment_checklist := some [("application", true), ("storage", true)]
    required_actions := []
    cloudformation_conditions := none
    enhanced := false
    metadata_version := none
    has_affected_resources := none
    has_deployments := none
    is_valid := none }

/-- Witness for C4: the critical-action error fires on `docCritical` and
fails the run in non-strict mode. -/
theorem validate_critical_error_witness :
    criticalError (([mkEntry "lambda/index.py" "app-lambda" mcA].filter isCritical).length)
        ∈ (validate_change_impact docCritical false).2.1 ∧
    (∀ w ∈ (validate_change_impact docCritical false).2.2,
      w ≠ criticalError (([mkEntry "lambda/index.py" "app-lambda" mcA].filter isCritical).length)) ∧
    (validate_change_impact docCritical false).1 = false :=
  validate_critical_error docCritical false
    [mkEntry "lambda/index.py" "app-lambda" mcA] [("application", true), ("storage", true)]
    rfl rfl (mkEntry "lambda/index.py" "app-lambda" mcA) (by decide) (by decide) rfl

/-- A document missing the affected_resources field. -/
def docNoResources : MetaDoc :=
  { changed_files := []
    affected_resources := none
    deployment_checklist := some []
    required_actions := []
    cloudformation_conditions := none
    enhanced := false
    metadata_version := none
    has_affected_resources := none
    has_deployments := none
    is_valid := none }

/-- Witness for C8: on `docNoResources` validation stops at the gate
with exactly the one structural error and no warnings. -/
theorem validate_structural_gate_witness :
    validate_change_impact docNoResources true = (false, [missingResourcesError], []) := by
  have h := validate_structural_gate docNoResources true (Or.inl rfl)
  simpa using h

/-- C9: the Enhancer is idempotent on its derived fields — recomputing
on its own output yields the same cloudformation_conditions,
has_affected_resources, has_deployments and is_valid, because these are
computed only from deployment_checklist and affected_resources, which
enhancement carries through unchanged. -/
theorem enhance_idempotent (metadata : MetaDoc)
    (condition_mapping : List (String × String)) :
    (prepare_change_metadata (prepare_change_metadata metadata condition_mapping)
        condition_mapping).cloudformation_conditions
      = (prepare_change_metadata metadata condition_mapping).cloudformation_conditions ∧
    (prepare_change_metadata (prepare_change_metadata metadata condition_mapping)
        condition_mapping).has_affected_resources
      = (prepare_change_metadata metadata condition_mapping).has_affected_resources ∧
    (prepare_change_metadata (prepare_change_metadata metadata condition_mapping)
        condition_mapping).has_deployments
      = (prepare_change_metadata metadata condition_mapping).has_deployments ∧
    (prepare_change_metadata (prepare_change_metadata metadata condition_mapping)
        condition_mapping).is_valid
      = (prepare_change_metadata metadata condition_mapping).is_valid :=
  ⟨rfl, rfl, rfl, rfl⟩

/- ### Enhancer condition-construction analysis -/

/-- The checklist of the C2 counterexample. -/
def checklistCex : List (String × Bool) := [("a", true), ("b", false), ("k", true)]

/-- The condition mapping of the C2 counterexample: two checklist keys
share one condition name and a third maps to the empty string. -/
def cmCex : List (String × String) := [("a", "C"), ("b", "C"), ("k", "")]

/-- A plain un-enhanced document holding `checklistCex`. -/
def docCex : MetaDoc :=
  { changed_files := []
    affected_resources := none
    deployment_checklist := some checklistCex
    required_actions := []
    cloudformation_conditions := none
    enhanced := false
    metadata_version := none
    has_affected_resources := none
    has_deployments := none
    is_valid := none }

/-- C2, counterexample: the pair (a, true) has the condition-mapping
entry C, yet the produced conditions hold C = false (the later pair
(b, false) overwrote it), and the pair (k, true) has the entry empty
string yet no condition keyed by it is produced — both contradicting the
claim that every mapped pair sets its condition to its own flag. -/
theorem enhancer_conditions_counterexample :
    (("a", true) ∈ checklistCex ∧ lookupKey "a" cmCex = some "C" ∧
      lookupKey "C"
          ((prepare_change_metadata docCex cmCex).cloudformation_conditions.getD [])
        ≠ some true) ∧
    (("k", true) ∈ checklistCex ∧ lookupKey "k" cmCex = some "" ∧
      lookupKey ""
          ((prepare_change_metadata docCex cmCex).cloudformation_conditions.getD [])
        = none) := by
  decide

/-- A checklist pair writes condition `c` when its key maps to the
non-empty name `c` in the condition mapping. -/
def writesCondition (condition_mapping : List (String × String)) (c : String)
    (kv : String × Bool) : Prop :=
  lookupKey kv.1 condition_mapping = some c ∧ c ≠ ""

instance (cm : List (String × String)) (c : String) (kv : String × Bool) :
    Decidable (writesCondition cm c kv) := by
  unfold writesCondition
  infer_instance

theorem buildFold_no_write (cm : List (String × String)) (c : String)
    (l : List (String × Bool)) (acc : List (String × Bool))
    (h : ∀ kv ∈ l, ¬ writesCondition cm c kv) :
    lookupKey c (l.foldl (buildStep cm) acc) = lookupKey c acc := by
  induction l generalizing acc with
  | nil => rfl
  | cons kv rest ih =>
    rw [List.foldl_cons, ih _ (fun kv2 h2 => h kv2 (List.mem_cons_of_mem kv h2))]
    have hkv := h kv (List.mem_cons_self kv rest)
    cases hlk : lookupKey kv.1 cm with
    | none => simp only [buildStep, hlk]
    | some c2 =>
      simp only [buildStep, hlk]
      by_cases hc2 : c2 = ""
      · simp [hc2]
      · rw [if_pos hc2, lookupKey_setKey]
        have hne : c2 ≠ c := by
          intro heq
          exact hkv ⟨by rw [hlk, heq], by rw [← heq]; exact hc2⟩
        rw [if_neg hne]

theorem buildFold_unique_write (cm : List (String × String)) (c : String) :
    ∀ (l : List (String × Bool)) (acc : List (String × Bool)) (k : String) (flag : Bool),
    (k, flag) ∈ l → (∀ kv ∈ l, writesCondition cm c kv → kv = (k, flag)) →
    lookupKey k cm = some c → c ≠ "" →
    lookupKey c (l.foldl (buildStep cm) acc) = some flag := by
  intro l
  induction l with
  | nil => intro acc k flag hmem _ _ _; cases hmem
  | cons kv rest ih =>
    intro acc k flag hmem huniq hlk hc
    by_cases hr : (k, flag) ∈ rest
    · exact ih _ k flag hr (fun kv2 h2 hw => huniq kv2 (List.mem_cons_of_mem kv h2) hw) hlk hc
    · have hkv : kv = (k, flag) := by
        rcases List.mem_cons.mp hmem with h | h
        · exact h.symm
        · exact absurd h hr
      subst hkv
      have hframe : ∀ kv2 ∈ rest, ¬ writesCondition cm c kv2 := by
        intro kv2 h2 hw
        have heq := huniq kv2 (List.mem_cons_of_mem _ h2) hw
        rw [heq] at h2
        exact hr h2
      rw [List.foldl_cons, buildFold_no_write cm c rest _ hframe]
      simp only [buildStep, hlk]
      rw [if_pos hc, lookupKey_setKey, if_pos rfl]

theorem keyNodup_val_eq (l : List (String × Bool)) (hnd : (l.map Prod.fst).Nodup)
    (k : String) (a b : Bool) (ha : (k, a) ∈ l) (hb : (k, b) ∈ l) : a = b := by
  induction l with
  | nil => cases ha
  | cons kv rest ih =>
    rw [List.map_cons, List.nodup_cons] at hnd
    rcases List.mem_cons.mp ha with h1 | h1 <;> rcases List.mem_cons.mp hb with h2 | h2
    · rw [← h2] at h1
      exact (Prod.mk.injEq _ _ _ _).mp h1 |>.2
    · exfalso
      apply hnd.1
      have hmm : k ∈ rest.map Prod.fst := by
        simpa using List.mem_map_of_mem Prod.fst h2
      rw [← h1]
      exact hmm
    · exfalso
      apply hnd.1
      have hmm : k ∈ rest.map Prod.fst := by
        simpa using List.mem_map_of_mem Prod.fst h1
      rw [← h2]
      exact hmm
    · exact ih hnd.2 h1 h2

/-- C2, amended: with distinct checklist keys, distinct checklist keys
mapped to distinct condition names, and no mapping entry naming the
composite condition, each checklist pair whose key has a non-empty
condition-mapping entry sets that condition to its flag; a condition
name no pair writes (no entry, or only the empty-string entry) is absent
unless it is the composite; whenever the key application is present the
composite DeployApplicationStack carries its flag regardless of the
mapping; and the scenario with checklist exactly application = true and
no mapping entry yields exactly the one composite condition.  Without
the added hypotheses a later pair mapped to the same name overwrites an
earlier one and an empty-string entry writes nothing. -/
theorem enhancer_conditions_spec (metadata : MetaDoc)
    (checklist : List (String × Bool)) (condition_mapping : List (String × String))
    (hdc : metadata.deployment_checklist = some checklist) :
    ((checklist.map Prod.fst).Nodup →
      (∀ kv1 ∈ checklist, ∀ kv2 ∈ checklist, kv1.1 ≠ kv2.1 →
        lookupKey kv1.1 condition_mapping = none ∨
        lookupKey kv1.1 condition_mapping = some "" ∨
        lookupKey kv1.1 condition_mapping ≠ lookupKey kv2.1 condition_mapping) →
      (∀ kv ∈ checklist, lookupKey kv.1 condition_mapping ≠ some "DeployApplicationStack") →
      ∀ k flag c, (k, flag) ∈ checklist → lookupKey k condition_mapping = some c →
        c ≠ "" →
        lookupKey c
            ((prepare_change_metadata metadata condition_mapping).cloudformation_conditions.getD [])
          = some flag) ∧
    (∀ c, c ≠ "DeployApplicationStack" →
      (∀ kv ∈ checklist, ¬ writesCondition condition_mapping c kv) →
      lookupKey c
          ((prepare_change_metadata metadata condition_mapping).cloudformation_conditions.getD [])
        = none) ∧
    (keyMem "application" checklist = true →
      lookupKey "DeployApplicationStack"
          ((prepare_change_metadata metadata condition_mapping).cloudformation_conditions.getD [])
        = some ((lookupKey "application" checklist).getD false)) ∧
    (checklist = [("application", true)] →
      lookupKey "application" condition_mapping = none →
      (prepare_change_metadata metadata condition_mapping).cloudformation_conditions
        = some [("DeployApplicationStack", true)]) := by
  have hconds : (prepare_change_metadata metadata condition_mapping).cloudformation_conditions
      = some (if keyMem "application" checklist then
            setKey (buildConditions checklist condition_mapping) "DeployApplicationStack"
              ((lookupKey "application" checklist).getD false)
          else buildConditions checklist condition_mapping) := by
    rw [prepare_change_metadata, hdc]
    rfl
  refine ⟨?_, ?_, ?_, ?_⟩
  · intro hnd hinj hcomp k flag c hkmem hlkc hcne
    rw [hconds, Option.getD_some]
    have hcDAS : c ≠ "DeployApplicationStack" := by
      intro hceq
      exact hcomp (k, flag) hkmem (by rw [hlkc, hceq])
    have hbase : lookupKey c (buildConditions checklist condition_mapping) = some flag := by
      rw [buildConditions]
      refine buildFold_unique_write condition_mapping c checklist [] k flag hkmem ?_ hlkc hcne
      rintro ⟨a, b⟩ hab ⟨hw1, hw2⟩
      by_cases hk : a = k
      · subst hk
        have hval := keyNodup_val_eq checklist hnd a b flag hab hkmem
        rw [hval]
      · rcases hinj (a, b) hab (k, flag) hkmem hk with h | h | h
        · rw [h] at hw1
          cases hw1
        · rw [h] at hw1
          exact absurd (Option.some.inj hw1).symm hw2
        · exact absurd (hw1.trans hlkc.symm) h
    cases hkm : keyMem "application" checklist
    · simp only [hkm, Bool.false_eq_true, if_false]
      exact hbase
    · simp only [hkm, if_true]
      rw [lookupKey_setKey, if_neg (fun heq => hcDAS heq.symm)]
      exact hbase
  · intro c hcDAS hnw
    rw [hconds, Option.getD_some]
    have hbase : lookupKey c (buildConditions checklist condition_mapping) = none := by
      rw [buildConditions, buildFold_no_write condition_mapping c checklist [] hnw]
      rfl
    cases hkm : keyMem "application" checklist
    · simp only [hkm, Bool.false_eq_true, if_false]
      exact hbase
    · simp only [hkm, if_true]
      rw [lookupKey_setKey, if_neg (fun heq => hcDAS heq.symm)]
      exact hbase
  · intro hkm
    rw [hconds, Option.getD_some]
    simp only [hkm, if_true]
    rw [lookupKey_setKey, if_pos rfl]
  · intro hcl hnone
    subst hcl
    rw [hconds]
    have hbc : buildConditions [("application", true)] condition_mapping = [] := by
      rw [buildConditions, List.foldl_cons, List.foldl_nil]
      simp only [buildStep, hnone]
    rw [hbc]
    rfl

/-- The checklist the C2 witness enhances. -/
def checklistWit : List (String × Bool) := [("application", true), ("storage", false)]

/-- The condition mapping of the C2 witness: distinct non-empty names. -/
def cmWit : List (String × String) :=
  [("application", "DeployApp"), ("storage", "DeployStorage")]

/-- A plain un-enhanced document holding `checklistWit`. -/
def docWit : MetaDoc :=
  { changed_files := []
    affected_resources := none
    deployment_checklist := some checklistWit
    required_actions := []
    cloudformation_conditions := none
    enhanced := false
    metadata_version := none
    has_affected_resources := none
    has_deployments := none
    is_valid := none }

/-- Witness for the amended C2 theorem on `docWit`: the mapped pair sets
its condition, an unwritten name is absent, and the composite fires. -/
theorem enhancer_conditions_spec_witness :
    lookupKey "DeployApp"
        ((prepare_change_metadata docWit cmWit).cloudformation_conditions.getD [])
      = some true ∧
    lookupKey "DeployNetwork"
        ((prepare_change_metadata docWit cmWit).cloudformation_conditions.getD [])
      = none ∧
    lookupKey "DeployApplicationStack"
        ((prepare_change_metadata docWit cmWit).cloudformation_conditions.getD [])
      = some ((lookupKey "application" checklistWit).getD false) :=
  ⟨(enhancer_conditions_spec docWit checklistWit cmWit rfl).1 (by decide) (by decide)
      (by decide) "application" true "DeployApp" (by decide) (by decide) (by decide),
    (enhancer_conditions_spec docWit checklistWit cmWit rfl).2.1 "DeployNetwork"
      (by decide) (by decide),
    (enhancer_conditions_spec docWit checklistWit cmWit rfl).2.2.1 (by decide)⟩
